import Mathlib

/-!
# Verification of the ab-business-portal core

A shallow embedding, in Lean 4, of the core of the `ab-business-portal`
repository: the cache-key construction and degradation behaviour of
`CacheService` (`src/services/CacheService.ts`), the Calgary business-license
adapter (`src/adapters/CalgaryBusinessLicenseAdapter.ts`) with its
radius-query algorithm and retry configuration, the public/staff visibility
transformers (`src/server/src/transformers`), and the route handlers'
upstream-failure reporting (`src/server/src/routes`).

JavaScript numbers that feed trigonometry are modelled as real numbers;
the 32-bit integer arithmetic of the djb2 key hash is modelled exactly as
naturals reduced modulo 2^32; `crypto.randomUUID()` is modelled by passing
the freshly generated value as an explicit argument.
-/

namespace ABPortal

/-! ## Parameter values and their JSON serialization

`CacheService.buildKey(source, endpoint, params)` receives a plain JS object
of scalar query parameters (numbers, strings, booleans, null) and serializes
it with `JSON.stringify(params, Object.keys(params).sort())`.  A JS object is
an insertion-ordered map with distinct keys: we model it as an association
list `List (String × JValue)` whose keys are nodup. -/

/-- A scalar JSON value as passed in `params` to `CacheService.buildKey`. -/
inductive JValue where
  | str (s : String)
  | num (n : Int)
  | bool (b : Bool)
  | null
deriving DecidableEq, Repr

/-- `JSON.stringify` escaping of one character inside a string literal
(quote and backslash; the control-character escapes are spelled out for the
characters that occur in this service's parameter values). -/
def jsonEscapeChar (c : Char) : String :=
  if c = '"' then "\\\""
  else if c = '\\' then "\\\\"
  else if c = '\n' then "\\n"
  else if c = '\t' then "\\t"
  else if c = '\r' then "\\r"
  else String.singleton c

/-- A JSON string literal: `"` + escaped characters + `"`. -/
def jsonQuote (s : String) : String :=
  "\"" ++ String.join (s.data.map jsonEscapeChar) ++ "\""

/-- `JSON.stringify` of a scalar value. -/
def JValue.serialize : JValue → String
  | .str s => jsonQuote s
  | .num n => toString n
  | .bool b => if b then "true" else "false"
  | .null => "null"

/-- `Object.keys(params).sort()`: the keys of the parameter object sorted
lexicographically (JS default string comparison). -/
def sortedKeys (params : List (String × JValue)) : List String :=
  List.insertionSort (· ≤ ·) (params.map Prod.fst)

/-- `JSON.stringify(params, Object.keys(params).sort())`: with an array
replacer, `JSON.stringify` emits exactly the listed properties, in the
replacer's order.  Here the replacer is the sorted key list, so the object is
serialized with its keys in lexicographic order. -/
def stringifyParams (params : List (String × JValue)) : String :=
  "\x7b" ++
    String.intercalate ","
      ((sortedKeys params).map fun k =>
        jsonQuote k ++ ":" ++ ((params.lookup k).getD JValue.null).serialize) ++
    "\x7d"

/-- `2^32`: JavaScript bitwise operators work on 32-bit integers. -/
def M32 : Nat := 2 ^ 32

/-- One step of the hash loop `hash = ((hash << 5) + hash) ^ charCode`,
on the 32-bit pattern of `hash` (`<<` and `^` coerce to 32 bits in JS). -/
def djb2Step (hash c : Nat) : Nat :=
  ((hash * 32 % M32 + hash) % M32) ^^^ c

/-- The UTF-16 code units `stable.charCodeAt(i)` iterates over (all the
characters this service hashes are in the basic multilingual plane, where the
code unit is the code point). -/
def charCodes (s : String) : List Nat :=
  s.data.map Char.toNat

/-- The djb2-style hash of the serialized parameter string, seeded with 5381;
`hash >>> 0` reads the final bit pattern as an unsigned 32-bit integer, which
is exactly the value our modular arithmetic carries. -/
def djb2 (s : String) : Nat :=
  (charCodes s).foldl djb2Step 5381

/-- `(hash >>> 0).toString(16)`: lowercase hexadecimal. -/
def toHex (n : Nat) : String :=
  String.mk (Nat.toDigits 16 n)

/-- `CacheService.buildKey`: `{source}:{endpoint}:{stable-hash-of-params}`. -/
def buildKey (source endpoint : String) (params : List (String × JValue)) : String :=
  source ++ ":" ++ endpoint ++ ":" ++ toHex (djb2 (stringifyParams params))

/-! ## The data model: Socrata wire records and `BusinessRecord`

`SocrataRecord` is the raw shape returned by the Socrata `vdjc-pybd` dataset
(named fields plus an open `[key: string]: unknown` remainder, modelled as an
association list).  `point` carries `{type, coordinates: [lng, lat]}`;
either the `point` key or its `coordinates` key may be absent. -/

/-- The `point` field of a Socrata record: `{ type, coordinates: [lng, lat] }`.
`coordinates` is `Option`al because the JS code checks
`r.point && r.point.coordinates` (the key may be absent). -/
structure SocrataPoint where
  type : String
  coordinates : Option (ℝ × ℝ)

/-- Raw shape returned by Socrata `vdjc-pybd` (the adapter's input contract).
The dynamic remainder `[key: string]: unknown` is the `extra` list. -/
structure SocrataRecord where
  getbusid : Option String
  tradename : Option String
  address : Option String
  licencetypes : Option String
  jobstatusdesc : Option String
  first_iss_dt : Option String
  point : Option SocrataPoint
  extra : List (String × JValue)

/-- A Socrata record with every field absent (`{}` in JS). -/
def emptySocrata : SocrataRecord :=
  { getbusid := none, tradename := none, address := none, licencetypes := none
    jobstatusdesc := none, first_iss_dt := none, point := none, extra := [] }

/-- The canonical `BusinessRecord` produced by adapters.  `_raw` preserves
the upstream payload verbatim (it is the only place PII lives). -/
structure BusinessRecord where
  id : String
  name : String
  category : String
  licenseType : String
  status : String
  lat : Option ℝ
  lng : Option ℝ
  issueDate : Option String
  province : String
  source : String
  _raw : Option SocrataRecord

/-! ## VisibilityTransform: the public whitelist projection -/

/-- `PublicBusinessRecord` — the FOIP whitelist.  By construction the type has
exactly the ten whitelisted fields and no raw payload. -/
structure PublicBusinessRecord where
  id : String
  name : String
  category : String
  licenseType : String
  status : String
  lat : Option ℝ
  lng : Option ℝ
  issueDate : Option String
  province : String
  source : String

/-- A serialized field value of a public record (what `res.json` would emit
per key). -/
inductive FieldValue where
  | s (v : String)
  | coord (v : Option ℝ)
  | optStr (v : Option String)

/-- The serialized form of a `PublicBusinessRecord`: its key/value pairs in
declaration order. -/
def PublicBusinessRecord.fields (p : PublicBusinessRecord) : List (String × FieldValue) :=
  [("id", .s p.id), ("name", .s p.name), ("category", .s p.category),
   ("licenseType", .s p.licenseType), ("status", .s p.status),
   ("lat", .coord p.lat), ("lng", .coord p.lng),
   ("issueDate", .optStr p.issueDate), ("province", .s p.province),
   ("source", .s p.source)]

/-- The ten whitelisted public field names, as the spec lists them. -/
def publicWhitelist : List String :=
  ["id", "name", "category", "licenseType", "status", "lat", "lng",
   "issueDate", "province", "source"]

/-- `toPublicRecord`: builds the projection field-by-field from the
whitelisted fields only; `_raw` is intentionally excluded. -/
def toPublicRecord (record : BusinessRecord) : PublicBusinessRecord :=
  { id := record.id
    name := record.name
    category := record.category
    licenseType := record.licenseType
    status := record.status
    lat := record.lat
    lng := record.lng
    issueDate := record.issueDate
    province := record.province
    source := record.source }

/-- `toPublicRecords`: the projection mapped over a result list. -/
def toPublicRecords (records : List BusinessRecord) : List PublicBusinessRecord :=
  records.map toPublicRecord

/-- `StaffBusinessRecord`: all public fields plus the raw payload under the
explicit `raw` key. -/
structure StaffBusinessRecord where
  id : String
  name : String
  category : String
  licenseType : String
  status : String
  lat : Option ℝ
  lng : Option ℝ
  issueDate : Option String
  province : String
  source : String
  raw : SocrataRecord

/-- `toStaffRecord`: spreads the non-`_raw` fields and renames `_raw` to
`raw` (`_raw ?? {}` defaults to the empty object). -/
def toStaffRecord (record : BusinessRecord) : StaffBusinessRecord :=
  { id := record.id
    name := record.name
    category := record.category
    licenseType := record.licenseType
    status := record.status
    lat := record.lat
    lng := record.lng
    issueDate := record.issueDate
    province := record.province
    source := record.source
    raw := record._raw.getD emptySocrata }

/-- `toStaffRecords`. -/
def toStaffRecords (records : List BusinessRecord) : List StaffBusinessRecord :=
  records.map toStaffRecord

/-! ## GeoMath: `Math.atan2` and the haversine distance -/

/-- `Math.atan2 y x` (the JS built-in): the angle of the point `(x, y)`,
in `(-π, π]`. -/
noncomputable def atan2 (y x : ℝ) : ℝ :=
  if 0 < x then Real.arctan (y / x)
  else if x < 0 then
    (if 0 ≤ y then Real.arctan (y / x) + Real.pi else Real.arctan (y / x) - Real.pi)
  else if 0 < y then Real.pi / 2
  else if y < 0 then -(Real.pi / 2)
  else 0

/-- The `haversine` helper of `CalgaryBusinessLicenseAdapter`: great-circle
distance in metres with Earth radius 6,371,000 m. -/
noncomputable def haversine (lat1 lng1 lat2 lng2 : ℝ) : ℝ :=
  let R : ℝ := 6371000
  let toRad : ℝ → ℝ := fun deg => deg * Real.pi / 180
  let dLat := toRad (lat2 - lat1)
  let dLng := toRad (lng2 - lng1)
  let a := Real.sin (dLat / 2) ^ 2 +
    Real.cos (toRad lat1) * Real.cos (toRad lat2) * Real.sin (dLng / 2) ^ 2
  R * 2 * atan2 (Real.sqrt a) (Real.sqrt (1 - a))

/-! ## The Calgary adapter -/

/-- A bounding box with four numeric edges. -/
structure BoundingBox where
  north : ℝ
  south : ℝ
  east : ℝ
  west : ℝ

/-- A radius query; `limit` is optional (`limit?: number`). -/
structure RadiusQuery where
  lat : ℝ
  lng : ℝ
  radiusMetres : ℝ
  limit : Option ℕ

/-- `SOCRATA_PAGE_LIMIT = 1000`. -/
def SOCRATA_PAGE_LIMIT : ℕ := 1000

/-- `CalgaryBusinessLicenseAdapter.toBusinessRecord`: normalize one Socrata
record.  `fresh` is the value `crypto.randomUUID()` returns during this
normalization; it is used only when `getbusid` is absent. -/
def toBusinessRecord (fresh : String) (r : SocrataRecord) : BusinessRecord :=
  let pos : Option ℝ × Option ℝ :=
    match r.point with
    | some p =>
      match p.coordinates with
      | some c => (some c.2, some c.1)
      | none => (none, none)
    | none => (none, none)
  { id := r.getbusid.getD fresh
    name := r.tradename.getD "Unknown Business"
    category := r.licencetypes.getD "Uncategorized"
    licenseType := r.licencetypes.getD ""
    status := r.jobstatusdesc.getD "Active"
    lat := pos.1
    lng := pos.2
    issueDate := r.first_iss_dt
    province := "AB"
    source := "calgary"
    _raw := some r }

/-- `data.map((r) => this.toBusinessRecord(r))`, with the stream of
`crypto.randomUUID()` results threaded explicitly: element `i` of the
response is normalized with the `i`-th freshly generated value. -/
def mapToBusinessRecords (uuids : ℕ → String) : ℕ → List SocrataRecord → List BusinessRecord
  | _, [] => []
  | i, r :: rs => toBusinessRecord (uuids i) r :: mapToBusinessRecords uuids (i + 1) rs

/-- `fetchByBoundingBox`, given the upstream response `data` for the box
request: every response record is normalized, none is dropped. -/
def fetchByBoundingBox (uuids : ℕ → String) (data : List SocrataRecord) : List BusinessRecord :=
  mapToBusinessRecords uuids 0 data

/-- The bounding box `fetchByRadius` builds before calling
`fetchByBoundingBox`: `degreeOffset = radiusMetres / 111_320`, latitude edges
`lat ± degreeOffset`, longitude edges `lng ± degreeOffset / cos(lat·π/180)`. -/
noncomputable def radiusBBox (lat lng radiusMetres : ℝ) : BoundingBox :=
  let degreeOffset := radiusMetres / 111320
  { north := lat + degreeOffset
    south := lat - degreeOffset
    east := lng + degreeOffset / Real.cos (lat * Real.pi / 180)
    west := lng - degreeOffset / Real.cos (lat * Real.pi / 180) }

/-- The record filter of `fetchByRadius`:
`r.lat !== null && r.lng !== null && haversine(lat, lng, r.lat, r.lng) <= radiusMetres`. -/
def withinRadius (lat lng radiusMetres : ℝ) (r : BusinessRecord) : Prop :=
  match r.lat, r.lng with
  | some rlat, some rlng => haversine lat lng rlat rlng ≤ radiusMetres
  | _, _ => False

noncomputable instance (lat lng radiusMetres : ℝ) (r : BusinessRecord) :
    Decidable (withinRadius lat lng radiusMetres r) :=
  Classical.propDecidable _

/-- `fetchByRadius`: build the approximate box, over-fetch it by `limit * 2`
through `fetchByBoundingBox`, filter by exact haversine distance, truncate to
`limit`.  `upstream` maps a bounding-box request (box and `$limit`) to the
Socrata response it returns. -/
noncomputable def fetchByRadius (upstream : BoundingBox → ℕ → List SocrataRecord)
    (uuids : ℕ → String) (q : RadiusQuery) : List BusinessRecord :=
  let limit := q.limit.getD SOCRATA_PAGE_LIMIT
  let records := fetchByBoundingBox uuids
    (upstream (radiusBBox q.lat q.lng q.radiusMetres) (limit * 2))
  (records.filter fun r => decide (withinRadius q.lat q.lng q.radiusMetres r)).take limit

/-- Modelled from the spec: the bounding box of §4.2 step (1), stated in the
spec's own terms — one degree of latitude ≈ 111,320 metres, longitude degrees
scaled by the cosine of the query latitude (in radians) to correct for
convergence. -/
noncomputable def specRadiusBox (lat lng radiusMetres : ℝ) : BoundingBox :=
  let latDegrees := radiusMetres / 111320
  let latInRadians := lat * Real.pi / 180
  let lngDegrees := latDegrees / Real.cos latInRadians
  { north := lat + latDegrees
    south := lat - latDegrees
    east := lng + lngDegrees
    west := lng - lngDegrees }

/-! ## The adapter's retry policy

The adapter constructor installs `axios-retry` on its HTTP client with
`retries: 3`, `retryDelay: axiosRetry.exponentialDelay` and the retry
condition of lines 109–112.  Per axios-retry's semantics, `retries` bounds
the number of *retries after the initial attempt*: an attempt is made, and
while the retry count is below `retries` and the last failure satisfies the
retry condition, one more attempt follows. -/

/-- The outcome of one attempt of an upstream call: success, a network-level
failure (no HTTP response, so `err.response?.status` is `undefined`), or an
HTTP error response with its status. -/
inductive UpstreamOutcome where
  | success
  | networkError
  | httpError (status : ℕ)
deriving DecidableEq, Repr

/-- The configured `retryCondition`:
`axiosRetry.isNetworkError(err) || status === 429 || (status !== undefined && status >= 500)`. -/
def retryCondition : UpstreamOutcome → Bool
  | .success => false
  | .networkError => true
  | .httpError status => status == 429 || decide (500 ≤ status)

/-- The retry loop, with `outcomes k` the result the upstream would give to
attempt number `k` (0-based).  `retryLoop outcomes k remaining` performs
attempt `k` with `remaining` retries left and returns the total number of
attempts made so far plus the final outcome. -/
def retryLoop (outcomes : ℕ → UpstreamOutcome) : ℕ → ℕ → ℕ × UpstreamOutcome
  | k, 0 => (k + 1, outcomes k)
  | k, remaining + 1 =>
    match outcomes k with
    | .success => (k + 1, .success)
    | o => if retryCondition o then retryLoop outcomes (k + 1) remaining else (k + 1, o)

/-- One upstream call of the adapter under the installed configuration
(`retries: 3`): the pair (number of attempts made, final outcome). -/
def adapterCall (outcomes : ℕ → UpstreamOutcome) : ℕ × UpstreamOutcome :=
  retryLoop outcomes 0 3

/-- `axiosRetry.exponentialDelay` without its random jitter term:
`2 ^ retryNumber * 100` milliseconds before retry number `n`. -/
def exponentialDelayBase (retryNumber : ℕ) : ℕ :=
  2 ^ retryNumber * 100

/-! ## CacheService: degradation and deserialization

`get`/`set`/`invalidate` each wrap their backend call in `try`/`catch`.  The
backend's behaviour is abstracted as the `Except` value its promise settles
to (`Except.error` = the awaited call threw); `JSON.parse` is abstracted as a
function into `Except` (`Except.error` = it threw).  The wrapper's own result
is again an `Except`, whose `error` case would mean the wrapper itself let an
exception escape to the caller. -/

/-- The body of the `try` block of `CacheService.get`: await the backend,
return `null` on `null`, otherwise `JSON.parse` the stored text.  Either step
may throw, and the body then propagates the exception. -/
def cacheGetBody {α : Type} (backendGet : Except Unit (Option String))
    (parse : String → Except Unit α) : Except Unit (Option α) :=
  match backendGet with
  | .error e => .error e
  | .ok none => .ok none
  | .ok (some raw) =>
    match parse raw with
    | .error e => .error e
    | .ok v => .ok (some v)

/-- `CacheService.get`: the `try` body with `catch { return null }`. -/
def cacheGet {α : Type} (backendGet : Except Unit (Option String))
    (parse : String → Except Unit α) : Except Unit (Option α) :=
  match cacheGetBody backendGet parse with
  | .error _ => .ok none
  | .ok v => .ok v

/-- `CacheService.set`: `try { backend.set } catch (err) { console.warn }`.
The `Bool` records whether the warning branch ran (the operation degraded to
a no-op). -/
def cacheSet (backendSet : Except Unit Unit) : Except Unit Bool :=
  match backendSet with
  | .error _ => .ok true
  | .ok _ => .ok false

/-- `CacheService.invalidate`: `try { backend.del } catch (err) { console.warn }`. -/
def cacheInvalidate (backendDel : Except Unit Unit) : Except Unit Bool :=
  match backendDel with
  | .error _ => .ok true
  | .ok _ => .ok false

/-! ## Route handlers: reporting upstream failure

The `GET /api/v1/businesses` and `GET /api/v1/staff/businesses` handlers:
validate the query, consult the cache, and on a miss call the adapter inside
`try`/`catch`; a throw (the adapter's retries exhausted or a network failure)
answers HTTP 502 with an error body. -/

/-- An HTTP response of the business-listing handlers: a 200 JSON body (with
its `X-Cache` header), a 400 validation rejection, or the 502
`{ error: "Upstream data source unavailable" }` answer. -/
inductive HttpResponse (α : Type) where
  | ok (cacheHit : Bool) (body : α)
  | badRequest
  | badGateway (error : String)

/-- The `GET /api/v1/businesses` handler after parameter parsing: `valid` is
whether the zod schema accepted the query, `cached` the cache lookup's
result, `upstreamResult` what `adapter.fetchByBoundingBox` settles to
(`Except.error` = it threw). -/
def handlePublicBusinesses (valid : Bool) (cached : Option (List PublicBusinessRecord))
    (upstreamResult : Except Unit (List BusinessRecord)) :
    HttpResponse (List PublicBusinessRecord) :=
  if valid then
    match cached with
    | some body => .ok true body
    | none =>
      match upstreamResult with
      | .ok records => .ok false (toPublicRecords records)
      | .error _ => .badGateway "Upstream data source unavailable"
  else .badRequest

/-- The `GET /api/v1/staff/businesses` handler after auth middleware and
parameter parsing, analogously. -/
def handleStaffBusinesses (valid : Bool) (cached : Option (List StaffBusinessRecord))
    (upstreamResult : Except Unit (List BusinessRecord)) :
    HttpResponse (List StaffBusinessRecord) :=
  if valid then
    match cached with
    | some body => .ok true body
    | none =>
      match upstreamResult with
      | .ok records => .ok false (toStaffRecords records)
      | .error _ => .badGateway "Upstream data source unavailable"
  else .badRequest

/-! ## Helper lemmas -/

/-- A Socrata record has no parseable position: whenever the `point` key is
present, its `coordinates` key is absent (this also covers `point` absent). -/
def positionAbsent (r : SocrataRecord) : Prop :=
  ∀ p, r.point = some p → p.coordinates = none

theorem toBusinessRecord_positionAbsent (fresh : String) (r : SocrataRecord)
    (h : positionAbsent r) :
    (toBusinessRecord fresh r).lat = none ∧ (toBusinessRecord fresh r).lng = none := by
  cases hp : r.point with
  | none => simp [toBusinessRecord, hp]
  | some p =>
    have hc := h p hp
    simp [toBusinessRecord, hp, hc]

theorem mapToBusinessRecords_length (uuids : ℕ → String) :
    ∀ (data : List SocrataRecord) (i : ℕ),
      (mapToBusinessRecords uuids i data).length = data.length := by
  intro data
  induction data with
  | nil => intro i; rfl
  | cons r rs ih => intro i; simp [mapToBusinessRecords, ih]

theorem mapToBusinessRecords_get (uuids : ℕ → String) :
    ∀ (data : List SocrataRecord) (i j : ℕ) (h1 : j < data.length)
      (h2 : j < (mapToBusinessRecords uuids i data).length),
      (mapToBusinessRecords uuids i data).get ⟨j, h2⟩ =
        toBusinessRecord (uuids (i + j)) (data.get ⟨j, h1⟩) := by
  intro data
  induction data with
  | nil => intro i j h1 _; exact absurd h1 (by simp)
  | cons r rs ih =>
    intro i j h1 h2
    cases j with
    | zero => simp [mapToBusinessRecords]
    | succ j =>
      have h1' : j < rs.length := by simpa using h1
      have h2' : j < (mapToBusinessRecords uuids (i + 1) rs).length := by
        simpa [mapToBusinessRecords_length] using h1'
      have := ih (i + 1) j h1' h2'
      simpa [mapToBusinessRecords, Nat.add_assoc, Nat.add_comm 1 j] using this

/-! ## C1: the public projection -/

/-- C1: `toPublicRecord` emits exactly the ten whitelisted fields and nothing
else; its output is unchanged under arbitrary mutation of `_raw`, and any two
records agreeing on the ten whitelisted fields project to identical public
records — no key or value of the raw payload can reach the output. -/
theorem toPublicRecord_whitelist_raw_independent (r1 r2 : BusinessRecord)
    (raw : Option SocrataRecord) :
    ((toPublicRecord r1).fields.map Prod.fst = publicWhitelist) ∧
    toPublicRecord { r1 with _raw := raw } = toPublicRecord r1 ∧
    (r1.id = r2.id → r1.name = r2.name → r1.category = r2.category →
      r1.licenseType = r2.licenseType → r1.status = r2.status →
      r1.lat = r2.lat → r1.lng = r2.lng → r1.issueDate = r2.issueDate →
      r1.province = r2.province → r1.source = r2.source →
      toPublicRecord r1 = toPublicRecord r2) := by
  refine ⟨rfl, rfl, ?_⟩
  intro h1 h2 h3 h4 h5 h6 h7 h8 h9 h10
  simp [toPublicRecord, h1, h2, h3, h4, h5, h6, h7, h8, h9, h10]

/-! ## C9: bounding-box queries pass every upstream record through -/

/-- C9: `fetchByBoundingBox` returns exactly one `BusinessRecord` per
upstream response record (records are never dropped), and a record without a
parseable position comes through with `lat` and `lng` absent. -/
theorem fetchByBoundingBox_passthrough (uuids : ℕ → String) (data : List SocrataRecord) :
    (fetchByBoundingBox uuids data).length = data.length ∧
    ∀ (i : ℕ) (h1 : i < data.length) (h2 : i < (fetchByBoundingBox uuids data).length),
      (fetchByBoundingBox uuids data).get ⟨i, h2⟩ =
        toBusinessRecord (uuids i) (data.get ⟨i, h1⟩) ∧
      (positionAbsent (data.get ⟨i, h1⟩) →
        ((fetchByBoundingBox uuids data).get ⟨i, h2⟩).lat = none ∧
        ((fetchByBoundingBox uuids data).get ⟨i, h2⟩).lng = none) := by
  refine ⟨mapToBusinessRecords_length uuids data 0, ?_⟩
  intro i h1 h2
  have hget := mapToBusinessRecords_get uuids data 0 i h1 h2
  simp only [Nat.zero_add] at hget
  refine ⟨hget, ?_⟩
  intro habs
  have habs' := toBusinessRecord_positionAbsent (uuids i) (data.get ⟨i, h1⟩) habs
  constructor
  · show ((mapToBusinessRecords uuids 0 data).get ⟨i, h2⟩).lat = none
    rw [hget]; exact habs'.1
  · show ((mapToBusinessRecords uuids 0 data).get ⟨i, h2⟩).lng = none
    rw [hget]; exact habs'.2

/-! ## C10: normalization is deterministic exactly when `getbusid` is present -/

/-- C10: with `getbusid` present, `toBusinessRecord` does not depend on the
freshly generated UUID, so two normalizations agree; with `getbusid` absent,
the generated UUID becomes the `id`, so two normalizations with distinct
fresh values yield different ids. -/
theorem toBusinessRecord_id_determinism (u1 u2 : String) (r : SocrataRecord) :
    (∀ g, r.getbusid = some g → toBusinessRecord u1 r = toBusinessRecord u2 r) ∧
    (r.getbusid = none →
      (toBusinessRecord u1 r).id = u1 ∧ (toBusinessRecord u2 r).id = u2 ∧
      (u1 ≠ u2 → (toBusinessRecord u1 r).id ≠ (toBusinessRecord u2 r).id)) := by
  constructor
  · intro g hg
    simp [toBusinessRecord, hg]
  · intro hnone
    refine ⟨by simp [toBusinessRecord, hnone], by simp [toBusinessRecord, hnone], ?_⟩
    intro hne
    simp [toBusinessRecord, hnone]
    exact hne

/-! ## C7: CacheService degradation -/

/-- C7: `get`, `set` and `invalidate` never raise for any backend behaviour:
a throwing or unavailable backend makes `get` return absent and makes
`set`/`invalidate` warn-and-noop; a value that fails to deserialize makes
`get` return absent exactly like a missing key. -/
theorem cacheService_never_raises {α : Type} (backendGet : Except Unit (Option String))
    (parse : String → Except Unit α) (backendSet backendDel : Except Unit Unit) :
    (∃ v, cacheGet backendGet parse = .ok v) ∧
    (∀ e, backendGet = .error e → cacheGet backendGet parse = .ok none) ∧
    (∀ raw e, backendGet = .ok (some raw) → parse raw = .error e →
      cacheGet backendGet parse = .ok none) ∧
    (backendGet = .ok none → cacheGet backendGet parse = .ok none) ∧
    (∃ warned, cacheSet backendSet = .ok warned) ∧
    (∀ e, backendSet = .error e → cacheSet backendSet = .ok true) ∧
    (∃ warned, cacheInvalidate backendDel = .ok warned) ∧
    (∀ e, backendDel = .error e → cacheInvalidate backendDel = .ok true) := by
  refine ⟨?_, ?_, ?_, ?_, ?_, ?_, ?_, ?_⟩
  · cases backendGet with
    | error e => exact ⟨none, rfl⟩
    | ok v =>
      cases v with
      | none => exact ⟨none, rfl⟩
      | some raw =>
        cases hp : parse raw with
        | error e => exact ⟨none, by simp [cacheGet, cacheGetBody, hp]⟩
        | ok x => exact ⟨some x, by simp [cacheGet, cacheGetBody, hp]⟩
  · intro e he; subst he; rfl
  · intro raw e hraw hp; subst hraw; simp [cacheGet, cacheGetBody, hp]
  · intro h; subst h; rfl
  · cases backendSet with
    | error e => exact ⟨true, rfl⟩
    | ok u => exact ⟨false, rfl⟩
  · intro e he; subst he; rfl
  · cases backendDel with
    | error e => exact ⟨true, rfl⟩
    | ok u => exact ⟨false, rfl⟩
  · intro e he; subst he; rfl

/-! ## C8: upstream failure is reported distinctly -/

/-- C8: on a valid query whose cache lookup misses, a failing adapter call
makes both business-listing handlers answer 502 with the
"Upstream data source unavailable" error body — never a 200 response (in
particular never an empty result array). -/
theorem upstream_failure_reported_distinctly (e : Unit) (cacheHit : Bool)
    (body : List PublicBusinessRecord) (staffBody : List StaffBusinessRecord) :
    handlePublicBusinesses true none (.error e) =
      .badGateway "Upstream data source unavailable" ∧
    handlePublicBusinesses true none (.error e) ≠ .ok cacheHit body ∧
    handleStaffBusinesses true none (.error e) =
      .badGateway "Upstream data source unavailable" ∧
    handleStaffBusinesses true none (.error e) ≠ .ok cacheHit staffBody := by
  refine ⟨rfl, ?_, rfl, ?_⟩ <;> intro h <;> exact HttpResponse.noConfusion h

/-! ## C4: the retry policy -/

theorem retryLoop_attempts_le (outcomes : ℕ → UpstreamOutcome) :
    ∀ (remaining k : ℕ), (retryLoop outcomes k remaining).1 ≤ k + remaining + 1 := by
  intro remaining
  induction remaining with
  | zero =>
    intro k
    show (k + 1, outcomes k).1 ≤ k + 0 + 1
    omega
  | succ r ih =>
    intro k
    rw [retryLoop]
    cases h : outcomes k with
    | success =>
      show k + 1 ≤ k + (r + 1) + 1
      omega
    | networkError =>
      show (retryLoop outcomes (k + 1) r).1 ≤ k + (r + 1) + 1
      have := ih (k + 1)
      omega
    | httpError status =>
      show (if retryCondition (.httpError status) = true then retryLoop outcomes (k + 1) r
        else (k + 1, UpstreamOutcome.httpError status)).1 ≤ k + (r + 1) + 1
      cases hc : retryCondition (.httpError status) with
      | true =>
        rw [if_pos rfl]
        have := ih (k + 1)
        omega
      | false =>
        rw [if_neg Bool.false_ne_true]
        show k + 1 ≤ k + (r + 1) + 1
        omega

theorem retryLoop_attempts_pos (outcomes : ℕ → UpstreamOutcome) :
    ∀ (remaining k : ℕ), k + 1 ≤ (retryLoop outcomes k remaining).1 := by
  intro remaining
  induction remaining with
  | zero =>
    intro k
    show k + 1 ≤ (k + 1, outcomes k).1
    omega
  | succ r ih =>
    intro k
    rw [retryLoop]
    cases h : outcomes k with
    | success =>
      show k + 1 ≤ k + 1
      omega
    | networkError =>
      show k + 1 ≤ (retryLoop outcomes (k + 1) r).1
      have := ih (k + 1)
      omega
    | httpError status =>
      show k + 1 ≤ (if retryCondition (.httpError status) = true then retryLoop outcomes (k + 1) r
        else (k + 1, UpstreamOutcome.httpError status)).1
      cases hc : retryCondition (.httpError status) with
      | true =>
        rw [if_pos rfl]
        have := ih (k + 1)
        omega
      | false =>
        rw [if_neg Bool.false_ne_true]

theorem retryCondition_client_error_false (status : ℕ) (hne : status ≠ 429)
    (hlt : status < 500) : retryCondition (.httpError status) = false := by
  simp only [retryCondition, Bool.or_eq_false_iff, beq_eq_false_iff_ne, ne_eq,
    decide_eq_false_iff_not, not_le]
  exact ⟨hne, hlt⟩

theorem adapterCall_first_not_retryable (outcomes : ℕ → UpstreamOutcome)
    (hc : retryCondition (outcomes 0) = false) :
    adapterCall outcomes = (1, outcomes 0) := by
  rw [adapterCall, retryLoop]
  cases h : outcomes 0 with
  | success => rfl
  | networkError =>
    rw [h] at hc
    exact absurd hc (by simp [retryCondition])
  | httpError status =>
    rw [h] at hc
    show (if retryCondition (.httpError status) = true then retryLoop outcomes (0 + 1) 2
      else (0 + 1, UpstreamOutcome.httpError status)) = (1, UpstreamOutcome.httpError status)
    rw [hc, if_neg Bool.false_ne_true]

/-- C4 counterexample: the claim caps the adapter at 3 attempts in total, but
with `retries: 3` a call whose every attempt fails with a retryable network
error is attempted 4 times (1 initial attempt + 3 retries). -/
theorem adapterCall_four_attempts :
    (adapterCall fun _ => UpstreamOutcome.networkError).1 = 4 ∧
    ¬(adapterCall fun _ => UpstreamOutcome.networkError).1 ≤ 3 := by
  constructor
  · rfl
  · decide

/-- C4 (amended): every upstream call is retried with exponential backoff and
bounded to 4 attempts in total (1 initial attempt + 3 retries); a retry is
triggered exactly by a network-level error, an HTTP 429 response, or an HTTP
status of 500 or above, and any other 4xx client error is never retried, so
such a call finishes after exactly one attempt. -/
theorem adapterCall_retry_policy (outcomes : ℕ → UpstreamOutcome) :
    (adapterCall outcomes).1 ≤ 4 ∧
    1 ≤ (adapterCall outcomes).1 ∧
    (retryCondition (outcomes 0) = false → (adapterCall outcomes).1 = 1) ∧
    (∀ status, outcomes 0 = .httpError status → status ≠ 429 → status < 500 →
      (adapterCall outcomes).1 = 1 ∧ (adapterCall outcomes).2 = .httpError status) ∧
    retryCondition .networkError = true ∧
    retryCondition (.httpError 429) = true ∧
    (∀ status, 500 ≤ status → retryCondition (.httpError status) = true) ∧
    (∀ status, status ≠ 429 → status < 500 → retryCondition (.httpError status) = false) ∧
    (∀ n, exponentialDelayBase (n + 1) = 2 * exponentialDelayBase n) := by
  refine ⟨?_, ?_, ?_, ?_, rfl, rfl, ?_, retryCondition_client_error_false, ?_⟩
  · have := retryLoop_attempts_le outcomes 3 0
    simpa [adapterCall] using this
  · exact retryLoop_attempts_pos outcomes 3 0
  · intro hc
    rw [adapterCall_first_not_retryable outcomes hc]
  · intro status h0 hne hlt
    have hc : retryCondition (outcomes 0) = false := by
      rw [h0]; exact retryCondition_client_error_false status hne hlt
    rw [adapterCall_first_not_retryable outcomes hc]
    exact ⟨rfl, h0⟩
  · intro status hs
    simp [retryCondition, hs]
  · intro n
    simp [exponentialDelayBase, pow_succ]
    ring

/-! ## C2: the radius query is a true subset of the exact circle -/

/-- C2: every record returned by `fetchByRadius` has a present position whose
haversine distance (Earth radius 6,371,000 m) from the query point is at most
`radiusMetres`, and the result is truncated to `limit` — no false positive
beyond the radius, for every upstream response. -/
theorem fetchByRadius_within_circle (upstream : BoundingBox → ℕ → List SocrataRecord)
    (uuids : ℕ → String) (q : RadiusQuery) :
    (fetchByRadius upstream uuids q).length ≤ q.limit.getD SOCRATA_PAGE_LIMIT ∧
    ∀ r ∈ fetchByRadius upstream uuids q, ∃ rlat rlng,
      r.lat = some rlat ∧ r.lng = some rlng ∧
      haversine q.lat q.lng rlat rlng ≤ q.radiusMetres := by
  constructor
  · show (List.take _ _).length ≤ _
    rw [List.length_take]
    exact min_le_left _ _
  · intro r hr
    have hr' : r ∈ List.filter _ (fetchByBoundingBox uuids
        (upstream (radiusBBox q.lat q.lng q.radiusMetres)
          (q.limit.getD SOCRATA_PAGE_LIMIT * 2))) := List.take_subset _ _ hr
    rw [List.mem_filter] at hr'
    have hw : withinRadius q.lat q.lng q.radiusMetres r := of_decide_eq_true hr'.2
    cases hlat : r.lat with
    | none => simp [withinRadius, hlat] at hw
    | some rlat =>
      cases hlng : r.lng with
      | none => simp [withinRadius, hlat, hlng] at hw
      | some rlng =>
        refine ⟨rlat, rlng, rfl, rfl, ?_⟩
        simpa [withinRadius, hlat, hlng] using hw

/-! ## C3: the bounding-box pre-filter -/

/-- C3: `fetchByRadius` builds its pre-filter box exactly as the spec states
it — latitude edges `lat ± radiusMetres/111,320` degrees, longitude edges
`lng ± (radiusMetres/111,320)/cos(lat in radians)` degrees — and requests that
box from `fetchByBoundingBox` with a fetch limit of at least 2× the requested
limit, before filtering and truncating. -/
theorem fetchByRadius_prefilter_spec (upstream : BoundingBox → ℕ → List SocrataRecord)
    (uuids : ℕ → String) (q : RadiusQuery) :
    radiusBBox q.lat q.lng q.radiusMetres = specRadiusBox q.lat q.lng q.radiusMetres ∧
    ∃ fetchLimit, 2 * q.limit.getD SOCRATA_PAGE_LIMIT ≤ fetchLimit ∧
      fetchByRadius upstream uuids q =
        ((fetchByBoundingBox uuids
            (upstream (specRadiusBox q.lat q.lng q.radiusMetres) fetchLimit)).filter
          fun r => decide (withinRadius q.lat q.lng q.radiusMetres r)).take
          (q.limit.getD SOCRATA_PAGE_LIMIT) := by
  have hbox : radiusBBox q.lat q.lng q.radiusMetres =
      specRadiusBox q.lat q.lng q.radiusMetres := rfl
  refine ⟨hbox, q.limit.getD SOCRATA_PAGE_LIMIT * 2, by omega, ?_⟩
  rw [fetchByRadius, hbox]

/-! ## C5: buildKey is deterministic and order-independent -/

theorem perm_lookup_eq (k : String) :
    ∀ {p1 p2 : List (String × JValue)}, p1.Perm p2 →
      (p1.map Prod.fst).Nodup → p1.lookup k = p2.lookup k := by
  intro p1 p2 hperm
  induction hperm with
  | nil => intro _; rfl
  | cons x h ih =>
    intro hn
    rw [List.map_cons, List.nodup_cons] at hn
    obtain ⟨a, b⟩ := x
    simp only [List.lookup]
    cases hk : k == a with
    | true => rfl
    | false => exact ih hn.2
  | swap x y l =>
    intro hn
    obtain ⟨a, b⟩ := x
    obtain ⟨c, d⟩ := y
    rw [List.map_cons, List.map_cons, List.nodup_cons] at hn
    have hca : c ≠ a := fun h => hn.1 (h ▸ List.mem_cons_self a _)
    simp only [List.lookup]
    cases hkc : k == c with
    | true =>
      cases hka : k == a with
      | true =>
        exact absurd ((beq_iff_eq.mp hka).symm.trans (beq_iff_eq.mp hkc)) hca.symm
      | false => rfl
    | false =>
      cases hka : k == a with
      | true => rfl
      | false => rfl
  | trans h1 h2 ih1 ih2 =>
    intro hn
    rw [ih1 hn]
    exact ih2 ((h1.map Prod.fst).nodup_iff.mp hn)

theorem sortedKeys_perm_eq (p1 p2 : List (String × JValue)) (hperm : p1.Perm p2) :
    sortedKeys p1 = sortedKeys p2 := by
  apply List.eq_of_perm_of_sorted (r := (· ≤ · : String → String → Prop))
  · exact (List.perm_insertionSort _ _).trans
      ((hperm.map Prod.fst).trans (List.perm_insertionSort _ _).symm)
  · exact List.sorted_insertionSort _ _
  · exact List.sorted_insertionSort _ _

/-- C5: `buildKey` is a pure deterministic function, order-independent in its
parameter map: two parameter maps holding identical key/value pairs in
different insertion orders produce the same key (the parameter map is
serialized with its keys sorted lexicographically before hashing, and the
hash has no randomized seed). -/
theorem buildKey_order_independent (source endpoint : String)
    (p1 p2 : List (String × JValue)) (hperm : p1.Perm p2)
    (hnodup : (p1.map Prod.fst).Nodup) :
    buildKey source endpoint p1 = buildKey source endpoint p2 := by
  have hstable : stringifyParams p1 = stringifyParams p2 := by
    rw [stringifyParams, stringifyParams, sortedKeys_perm_eq p1 p2 hperm]
    have hfun : (fun k => jsonQuote k ++ ":" ++ ((p1.lookup k).getD JValue.null).serialize)
        = fun k => jsonQuote k ++ ":" ++ ((p2.lookup k).getD JValue.null).serialize := by
      funext k
      rw [perm_lookup_eq k hperm hnodup]
    rw [hfun]
  rw [buildKey, buildKey, hstable]

/-- C5 witness: the bounding-box parameter map built in one insertion order
produces the same cache key as the same map built in the reverse order. -/
theorem buildKey_order_independent_witness :
    buildKey "calgary" "bbox"
        [("north", JValue.num 51), ("south", JValue.num 50), ("limit", JValue.num 500)] =
      buildKey "calgary" "bbox"
        [("limit", JValue.num 500), ("south", JValue.num 50), ("north", JValue.num 51)] :=
  buildKey_order_independent "calgary" "bbox" _ _ (by decide) (by decide)

/-! ## C6: buildKey collisions -/

/-- C6 counterexample: two calls with equal source and operation whose single
parameter `a` takes different string values nevertheless produce the same
cache key — the serialized maps collide in the 32-bit djb2 hash — so
`buildKey` is not injective over distinct parameter values. -/
theorem buildKey_param_collision :
    buildKey "calgary" "bbox" [("a", JValue.str "khguhq")] =
        buildKey "calgary" "bbox" [("a", JValue.str "zmapeaxiza")] ∧
      JValue.str "khguhq" ≠ JValue.str "zmapeaxiza" := by
  constructor
  · decide
  · decide

/-- C6 (amended): `buildKey` distinguishes the source and the operation —
with the other arguments equal, a differing source or a differing operation
always yields a differing key — but two calls differing only in a parameter
value may collide, because the parameter map enters the key only through a
32-bit hash (concrete collision exhibited), so injectivity over parameter
values holds only statistically, not universally. -/
theorem buildKey_source_endpoint_injective (s1 s2 e1 e2 : String)
    (p : List (String × JValue)) :
    (s1 ≠ s2 → buildKey s1 e1 p ≠ buildKey s2 e1 p) ∧
    (e1 ≠ e2 → buildKey s1 e1 p ≠ buildKey s1 e2 p) := by
  constructor
  · intro hne heq
    apply hne
    have hdata : (buildKey s1 e1 p).data = (buildKey s2 e1 p).data := by rw [heq]
    simp only [buildKey, String.data_append, List.append_assoc] at hdata
    exact String.ext (List.append_cancel_right hdata)
  · intro hne heq
    apply hne
    have hdata : (buildKey s1 e1 p).data = (buildKey s1 e2 p).data := by rw [heq]
    simp only [buildKey, String.data_append, List.append_assoc] at hdata
    have h1 := List.append_cancel_left hdata
    have h2 := List.append_cancel_left h1
    exact String.ext (List.append_cancel_right h2)

end ABPortal

